import Mathlib

/-!
Shallow embedding of the KEM wrapper in `src/oqs/src/kem.rs` (oqs-rs).

Buffers crossing the FFI boundary are modelled as `List Nat` (byte lists).
The native `OQS_KEM` descriptor is a record of declared lengths plus
optional function pointers; each native function is modelled as a pure
function returning the status code together with the bytes it wrote into
the caller-supplied output buffers.  The Rust operations return
`Option (Except Error _)`: the outer `none` models the panic of
`Option::unwrap` on an absent function pointer, `some (Except.error e)`
models `Err(e)`, `some (Except.ok v)` models `Ok(v)`.
-/

namespace Oqs

/-- Modelled from the spec (§7): the repository's error enum lives in
`oqs/src/lib.rs`, which is not among the provided sources.  Three kinds:
`AlgorithmDisabled` (handle creation of an unavailable algorithm),
`InvalidLength` (a caller-supplied buffer of the wrong length),
`OperationFailed` (a non-success native status). -/
inductive Error where
  | AlgorithmDisabled
  | InvalidLength
  | OperationFailed
deriving DecidableEq, Repr

/-- Modelled from the spec (§6, §7): the status translator in
`oqs/src/lib.rs` (not among the provided sources) maps the native status
code 0 to success and every nonzero status to `OperationFailed`. -/
def status_to_result (status : Int) : Except Error Unit :=
  if status = 0 then Except.ok () else Except.error Error.OperationFailed

/-- Model of `Vec::set_len(n)` on a `Vec` of capacity `n` after a native
write: the logical contents become exactly `n` bytes — the bytes the
native call wrote (`written`), padded with a default byte standing for
any memory the native call left uninitialized. -/
def setLen (n : Nat) (written : List Nat) : List Nat :=
  written.take n ++ List.replicate (n - written.length) 0

/-- The native `OQS_KEM` descriptor (`crate::ffi::kem::OQS_KEM`), as the
wrapper reads it: five declared lengths, metadata, and the function-pointer
table.  A native keygen-style entry returns (status, public-key bytes,
secret-key bytes); an encaps-style entry maps the public key to
(status, ciphertext bytes, secret bytes); `encaps_shared_secret` maps
(ct, es, pk) to (status, shared-secret bytes); `decaps` maps (ct, sk) to
(status, shared-secret bytes), matching the pointer-argument order of the
calls in `kem.rs`. -/
structure OQS_KEM where
  claimed_nist_level : Nat
  ind_cca : Bool
  length_public_key : Nat
  length_secret_key : Nat
  length_ciphertext : Nat
  length_shared_secret : Nat
  length_ephemeral_secret : Nat
  init : Option (Unit → Int)
  deinit : Option (Unit → Int)
  keypair : Option (Unit → Int × List Nat × List Nat)
  keypair_async : Option (Unit → Int × List Nat × List Nat)
  encaps : Option (List Nat → Int × List Nat × List Nat)
  async_encaps : Option (List Nat → Int × List Nat × List Nat)
  encaps_ciphertext : Option (List Nat → Int × List Nat × List Nat)
  encaps_shared_secret : Option (List Nat → List Nat → List Nat → Int × List Nat)
  decaps : Option (List Nat → List Nat → Int × List Nat)

/-- The algorithm catalog of `kem.rs` (`implement_kems!` invocation). -/
inductive Algorithm where
  | BikeL1
  | BikeL3
  | ClassicMcEliece348864
  | ClassicMcEliece348864f
  | ClassicMcEliece460896
  | ClassicMcEliece460896f
  | ClassicMcEliece6688128
  | ClassicMcEliece6688128f
  | ClassicMcEliece6960119
  | ClassicMcEliece6960119f
  | ClassicMcEliece8192128
  | ClassicMcEliece8192128f
  | Hqc128
  | Hqc192
  | Hqc256
  | Kyber512
  | Kyber768
  | Kyber1024
  | Kyber512_90s
  | Kyber768_90s
  | Kyber1024_90s
  | NtruHps2048509
  | NtruHps2048677
  | NtruHps4096821
  | NtruHps40961229
  | NtruHrss701
  | NtruHrss1373
  | NtruPrimeNtrulpr653
  | NtruPrimeNtrulpr761
  | NtruPrimeNtrulpr857
  | NtruPrimeNtrulpr1277
  | NtruPrimeSntrup653
  | NtruPrimeSntrup761
  | NtruPrimeSntrup857
  | NtruPrimeSntrup1277
  | Lightsaber
  | Saber
  | Firesaber
  | FrodoKem640Aes
  | FrodoKem640Shake
  | FrodoKem976Aes
  | FrodoKem976Shake
  | FrodoKem1344Aes
  | FrodoKem1344Shake
  | SidhP434
  | SidhP503
  | SidhP610
  | SidhP751
  | SidhP434Compressed
  | SidhP503Compressed
  | SidhP610Compressed
  | SidhP751Compressed
  | SikeP434
  | SikeP503
  | SikeP610
  | SikeP751
  | SikeP434Compressed
  | SikeP503Compressed
  | SikeP610Compressed
  | SikeP751Compressed
  | SikeP434Compressed1CCA
  | SikeP503Compressed1CCA
  | SikeP610Compressed1CCA
  | SikeP751Compressed1CCA
  | CsidhP512
deriving DecidableEq, Repr

/-- The `Kem` handle: the chosen algorithm tag plus the dereferenced
non-null native descriptor (`NonNull<ffi::OQS_KEM>`). -/
structure Kem where
  algorithm : Algorithm
  kem : OQS_KEM

/-- `Kem::new`: native acquisition (`ffi::OQS_KEM_new`, an external
collaborator) is passed in as a function from the algorithm tag to an
optional descriptor; `none` models the null pointer.  A null descriptor
yields `AlgorithmDisabled`, otherwise the handle is built. -/
def Kem.new (OQS_KEM_new : Algorithm → Option OQS_KEM) (algorithm : Algorithm) :
    Except Error Kem :=
  match OQS_KEM_new algorithm with
  | none => Except.error Error.AlgorithmDisabled
  | some kem => Except.ok { algorithm := algorithm, kem := kem }

/-- `Kem::length_public_key`. -/
def Kem.length_public_key (k : Kem) : Nat := k.kem.length_public_key

/-- `Kem::length_secret_key`. -/
def Kem.length_secret_key (k : Kem) : Nat := k.kem.length_secret_key

/-- `Kem::length_ciphertext`. -/
def Kem.length_ciphertext (k : Kem) : Nat := k.kem.length_ciphertext

/-- `Kem::length_shared_secret`. -/
def Kem.length_shared_secret (k : Kem) : Nat := k.kem.length_shared_secret

/-- `Kem::length_ephemeral_secret`. -/
def Kem.length_ephemeral_secret (k : Kem) : Nat := k.kem.length_ephemeral_secret

/-- `Kem::secret_key_from_bytes`. -/
def Kem.secret_key_from_bytes (k : Kem) (buf : List Nat) : Option (List Nat) :=
  if k.length_secret_key ≠ buf.length then none else some buf

/-- `Kem::public_key_from_bytes`. -/
def Kem.public_key_from_bytes (k : Kem) (buf : List Nat) : Option (List Nat) :=
  if k.length_public_key ≠ buf.length then none else some buf

/-- `Kem::ciphertext_from_bytes`. -/
def Kem.ciphertext_from_bytes (k : Kem) (buf : List Nat) : Option (List Nat) :=
  if k.length_ciphertext ≠ buf.length then none else some buf

/-- `Kem::shared_secret_from_bytes`. -/
def Kem.shared_secret_from_bytes (k : Kem) (buf : List Nat) : Option (List Nat) :=
  if k.length_shared_secret ≠ buf.length then none else some buf

/-- `Kem::ephemeral_secret_from_bytes`. -/
def Kem.ephemeral_secret_from_bytes (k : Kem) (buf : List Nat) : Option (List Nat) :=
  if k.length_ephemeral_secret ≠ buf.length then none else some buf

/-- `Kem::init`: `kem.init.unwrap()` (outer `none` = panic), call, translate
the status. -/
def Kem.init (k : Kem) : Option (Except Error Unit) :=
  match k.kem.init with
  | none => none
  | some func =>
    some (match status_to_result (func ()) with
      | Except.error e => Except.error e
      | Except.ok _ => Except.ok ())

/-- `Kem::deinit`: `kem.deinit.unwrap()` (outer `none` = panic), call,
translate the status. -/
def Kem.deinit (k : Kem) : Option (Except Error Unit) :=
  match k.kem.deinit with
  | none => none
  | some func =>
    some (match status_to_result (func ()) with
      | Except.error e => Except.error e
      | Except.ok _ => Except.ok ())

/-- `Kem::keypair`: unwrap the native keygen, allocate both outputs at
declared capacity, invoke, translate the status, and on success finalize
both lengths (`set_len`) to the declared lengths. -/
def Kem.keypair (k : Kem) : Option (Except Error (List Nat × List Nat)) :=
  match k.kem.keypair with
  | none => none
  | some func =>
    let r := func ()
    some (match status_to_result r.1 with
      | Except.error e => Except.error e
      | Except.ok _ =>
        Except.ok (setLen k.kem.length_public_key r.2.1,
          setLen k.kem.length_secret_key r.2.2))

/-- `Kem::keypair_async`: identical to `keypair` but through the
`keypair_async` native entry point. -/
def Kem.keypair_async (k : Kem) : Option (Except Error (List Nat × List Nat)) :=
  match k.kem.keypair_async with
  | none => none
  | some func =>
    let r := func ()
    some (match status_to_result r.1 with
      | Except.error e => Except.error e
      | Except.ok _ =>
        Except.ok (setLen k.kem.length_public_key r.2.1,
          setLen k.kem.length_secret_key r.2.2))

/-- `Kem::encapsulate`: reject a public key whose length differs from the
declared public-key length before touching the function-pointer table;
then unwrap `encaps`, invoke, translate the status, and on success
finalize the ciphertext and shared-secret lengths. -/
def Kem.encapsulate (k : Kem) (pk : List Nat) :
    Option (Except Error (List Nat × List Nat)) :=
  if pk.length ≠ k.length_public_key then some (Except.error Error.InvalidLength)
  else
    match k.kem.encaps with
    | none => none
    | some func =>
      let r := func pk
      some (match status_to_result r.1 with
        | Except.error e => Except.error e
        | Except.ok _ =>
          Except.ok (setLen k.kem.length_ciphertext r.2.1,
            setLen k.kem.length_shared_secret r.2.2))

/-- `Kem::async_encapsulate`: identical to `encapsulate` but through the
`async_encaps` native entry point. -/
def Kem.async_encapsulate (k : Kem) (pk : List Nat) :
    Option (Except Error (List Nat × List Nat)) :=
  if pk.length ≠ k.length_public_key then some (Except.error Error.InvalidLength)
  else
    match k.kem.async_encaps with
    | none => none
    | some func =>
      let r := func pk
      some (match status_to_result r.1 with
        | Except.error e => Except.error e
        | Except.ok _ =>
          Except.ok (setLen k.kem.length_ciphertext r.2.1,
            setLen k.kem.length_shared_secret r.2.2))

/-- `Kem::encapsulate_ciphertext`: like `encapsulate`, but through the
`encaps_ciphertext` entry point, producing a ciphertext and an ephemeral
secret finalized to `length_ephemeral_secret`. -/
def Kem.encapsulate_ciphertext (k : Kem) (pk : List Nat) :
    Option (Except Error (List Nat × List Nat)) :=
  if pk.length ≠ k.length_public_key then some (Except.error Error.InvalidLength)
  else
    match k.kem.encaps_ciphertext with
    | none => none
    | some func =>
      let r := func pk
      some (match status_to_result r.1 with
        | Except.error e => Except.error e
        | Except.ok _ =>
          Except.ok (setLen k.kem.length_ciphertext r.2.1,
            setLen k.kem.length_ephemeral_secret r.2.2))

/-- `Kem::encapsulate_shared_secret`: validates the public key, then the
ciphertext, then the ephemeral secret, each against its own declared
length and each short-circuiting to `InvalidLength`, before unwrapping
`encaps_shared_secret` and invoking it. -/
def Kem.encapsulate_shared_secret (k : Kem) (ct es pk : List Nat) :
    Option (Except Error (List Nat)) :=
  if pk.length ≠ k.length_public_key then some (Except.error Error.InvalidLength)
  else if ct.length ≠ k.kem.length_ciphertext then some (Except.error Error.InvalidLength)
  else if es.length ≠ k.kem.length_ephemeral_secret then some (Except.error Error.InvalidLength)
  else
    match k.kem.encaps_shared_secret with
    | none => none
    | some func =>
      let r := func ct es pk
      some (match status_to_result r.1 with
        | Except.error e => Except.error e
        | Except.ok _ => Except.ok (setLen k.kem.length_shared_secret r.2))

/-- `Kem::decapsulate`: rejects a secret key or ciphertext of the wrong
length (one combined check in the source), then unwraps `decaps`,
invokes it with (ct, sk), translates the status, and finalizes the shared
secret to the declared length. -/
def Kem.decapsulate (k : Kem) (sk ct : List Nat) :
    Option (Except Error (List Nat)) :=
  if sk.length ≠ k.length_secret_key ∨ ct.length ≠ k.length_ciphertext then
    some (Except.error Error.InvalidLength)
  else
    match k.kem.decaps with
    | none => none
    | some func =>
      let r := func ct sk
      some (match status_to_result r.1 with
        | Except.error e => Except.error e
        | Except.ok _ => Except.ok (setLen k.kem.length_shared_secret r.2))

theorem setLen_length (n : Nat) (w : List Nat) : (setLen n w).length = n := by
  simp [setLen]
  omega

/-- A concrete toy descriptor (all declared lengths 1, every entry point
present and succeeding) used to evaluate the operations at concrete
inputs. -/
def toyKem : OQS_KEM where
  claimed_nist_level := 1
  ind_cca := true
  length_public_key := 1
  length_secret_key := 1
  length_ciphertext := 1
  length_shared_secret := 1
  length_ephemeral_secret := 1
  init := some (fun _ => 0)
  deinit := some (fun _ => 0)
  keypair := some (fun _ => (0, [7], [7]))
  keypair_async := some (fun _ => (0, [7], [7]))
  encaps := some (fun pk => (0, pk, pk))
  async_encaps := some (fun pk => (0, pk, pk))
  encaps_ciphertext := some (fun pk => (0, pk, pk))
  encaps_shared_secret := some (fun ct _ _ => (0, ct))
  decaps := some (fun ct _ => (0, ct))

/-- A toy handle over `toyKem`. -/
def toyHandle : Kem where
  algorithm := Algorithm.SikeP434
  kem := toyKem

/-- A toy descriptor whose entry points all fail with status 1. -/
def toyKemFail : OQS_KEM where
  claimed_nist_level := 1
  ind_cca := true
  length_public_key := 1
  length_secret_key := 1
  length_ciphertext := 1
  length_shared_secret := 1
  length_ephemeral_secret := 1
  init := some (fun _ => 1)
  deinit := some (fun _ => 1)
  keypair := some (fun _ => (1, [], []))
  keypair_async := some (fun _ => (1, [], []))
  encaps := some (fun _ => (1, [], []))
  async_encaps := some (fun _ => (1, [], []))
  encaps_ciphertext := some (fun _ => (1, [], []))
  encaps_shared_secret := some (fun _ _ _ => (1, []))
  decaps := some (fun _ _ => (1, []))

/-- A toy handle over `toyKemFail`. -/
def toyHandleFail : Kem where
  algorithm := Algorithm.SikeP434
  kem := toyKemFail

/-- A toy descriptor whose function-pointer table is entirely absent. -/
def toyKemAbsent : OQS_KEM where
  claimed_nist_level := 1
  ind_cca := true
  length_public_key := 1
  length_secret_key := 1
  length_ciphertext := 1
  length_shared_secret := 1
  length_ephemeral_secret := 1
  init := none
  deinit := none
  keypair := none
  keypair_async := none
  encaps := none
  async_encaps := none
  encaps_ciphertext := none
  encaps_shared_secret := none
  decaps := none

/-- A toy handle over `toyKemAbsent`. -/
def toyHandleAbsent : Kem where
  algorithm := Algorithm.SikeP434
  kem := toyKemAbsent

theorem keypair_ok_inv (k : Kem) (pk sk : List Nat)
    (h : k.keypair = some (Except.ok (pk, sk))) :
    ∃ f, k.kem.keypair = some f ∧ (f ()).1 = 0 ∧
      pk = setLen k.kem.length_public_key (f ()).2.1 ∧
      sk = setLen k.kem.length_secret_key (f ()).2.2 := by
  unfold Kem.keypair at h
  cases hf : k.kem.keypair with
  | none => rw [hf] at h; simp at h
  | some f =>
    rw [hf] at h
    refine ⟨f, rfl, ?_⟩
    by_cases hs : (f ()).1 = 0
    · simp [status_to_result, hs] at h
      exact ⟨hs, h.1.symm, h.2.symm⟩
    · simp [status_to_result, hs] at h

theorem keypair_async_ok_inv (k : Kem) (pk sk : List Nat)
    (h : k.keypair_async = some (Except.ok (pk, sk))) :
    ∃ f, k.kem.keypair_async = some f ∧ (f ()).1 = 0 ∧
      pk = setLen k.kem.length_public_key (f ()).2.1 ∧
      sk = setLen k.kem.length_secret_key (f ()).2.2 := by
  unfold Kem.keypair_async at h
  cases hf : k.kem.keypair_async with
  | none => rw [hf] at h; simp at h
  | some f =>
    rw [hf] at h
    refine ⟨f, rfl, ?_⟩
    by_cases hs : (f ()).1 = 0
    · simp [status_to_result, hs] at h
      exact ⟨hs, h.1.symm, h.2.symm⟩
    · simp [status_to_result, hs] at h

theorem encapsulate_ok_inv (k : Kem) (pk ct ss : List Nat)
    (h : k.encapsulate pk = some (Except.ok (ct, ss))) :
    pk.length = k.length_public_key ∧
      ∃ f, k.kem.encaps = some f ∧ (f pk).1 = 0 ∧
        ct = setLen k.kem.length_ciphertext (f pk).2.1 ∧
        ss = setLen k.kem.length_shared_secret (f pk).2.2 := by
  unfold Kem.encapsulate at h
  by_cases hl : pk.length = k.length_public_key
  · refine ⟨hl, ?_⟩
    simp only [hl, ne_eq, not_true_eq_false, if_false] at h
    cases hf : k.kem.encaps with
    | none => rw [hf] at h; simp at h
    | some f =>
      rw [hf] at h
      refine ⟨f, rfl, ?_⟩
      by_cases hs : (f pk).1 = 0
      · simp [status_to_result, hs] at h
        exact ⟨hs, h.1.symm, h.2.symm⟩
      · simp [status_to_result, hs] at h
  · simp [hl] at h

theorem async_encapsulate_ok_inv (k : Kem) (pk ct ss : List Nat)
    (h : k.async_encapsulate pk = some (Except.ok (ct, ss))) :
    pk.length = k.length_public_key ∧
      ∃ f, k.kem.async_encaps = some f ∧ (f pk).1 = 0 ∧
        ct = setLen k.kem.length_ciphertext (f pk).2.1 ∧
        ss = setLen k.kem.length_shared_secret (f pk).2.2 := by
  unfold Kem.async_encapsulate at h
  by_cases hl : pk.length = k.length_public_key
  · refine ⟨hl, ?_⟩
    simp only [hl, ne_eq, not_true_eq_false, if_false] at h
    cases hf : k.kem.async_encaps with
    | none => rw [hf] at h; simp at h
    | some f =>
      rw [hf] at h
      refine ⟨f, rfl, ?_⟩
      by_cases hs : (f pk).1 = 0
      · simp [status_to_result, hs] at h
        exact ⟨hs, h.1.symm, h.2.symm⟩
      · simp [status_to_result, hs] at h
  · simp [hl] at h

theorem encapsulate_ciphertext_ok_inv (k : Kem) (pk ct es : List Nat)
    (h : k.encapsulate_ciphertext pk = some (Except.ok (ct, es))) :
    pk.length = k.length_public_key ∧
      ∃ f, k.kem.encaps_ciphertext = some f ∧ (f pk).1 = 0 ∧
        ct = setLen k.kem.length_ciphertext (f pk).2.1 ∧
        es = setLen k.kem.length_ephemeral_secret (f pk).2.2 := by
  unfold Kem.encapsulate_ciphertext at h
  by_cases hl : pk.length = k.length_public_key
  · refine ⟨hl, ?_⟩
    simp only [hl, ne_eq, not_true_eq_false, if_false] at h
    cases hf : k.kem.encaps_ciphertext with
    | none => rw [hf] at h; simp at h
    | some f =>
      rw [hf] at h
      refine ⟨f, rfl, ?_⟩
      by_cases hs : (f pk).1 = 0
      · simp [status_to_result, hs] at h
        exact ⟨hs, h.1.symm, h.2.symm⟩
      · simp [status_to_result, hs] at h
  · simp [hl] at h

theorem encapsulate_shared_secret_ok_inv (k : Kem) (ct es pk ss : List Nat)
    (h : k.encapsulate_shared_secret ct es pk = some (Except.ok ss)) :
    pk.length = k.length_public_key ∧ ct.length = k.kem.length_ciphertext ∧
      es.length = k.kem.length_ephemeral_secret ∧
      ∃ f, k.kem.encaps_shared_secret = some f ∧ (f ct es pk).1 = 0 ∧
        ss = setLen k.kem.length_shared_secret (f ct es pk).2 := by
  unfold Kem.encapsulate_shared_secret at h
  by_cases hp : pk.length = k.length_public_key
  · by_cases hc : ct.length = k.kem.length_ciphertext
    · by_cases he : es.length = k.kem.length_ephemeral_secret
      · refine ⟨hp, hc, he, ?_⟩
        simp only [hp, hc, he, ne_eq, not_true_eq_false, if_false] at h
        cases hf : k.kem.encaps_shared_secret with
        | none => rw [hf] at h; simp at h
        | some f =>
          rw [hf] at h
          refine ⟨f, rfl, ?_⟩
          by_cases hs : (f ct es pk).1 = 0
          · simp [status_to_result, hs] at h
            exact ⟨hs, h.symm⟩
          · simp [status_to_result, hs] at h
      · simp [hp, hc, he] at h
    · simp [hp, hc] at h
  · simp [hp] at h

theorem decapsulate_ok_inv (k : Kem) (sk ct ss : List Nat)
    (h : k.decapsulate sk ct = some (Except.ok ss)) :
    sk.length = k.length_secret_key ∧ ct.length = k.length_ciphertext ∧
      ∃ f, k.kem.decaps = some f ∧ (f ct sk).1 = 0 ∧
        ss = setLen k.kem.length_shared_secret (f ct sk).2 := by
  unfold Kem.decapsulate at h
  by_cases hsk : sk.length = k.length_secret_key
  · by_cases hct : ct.length = k.length_ciphertext
    · refine ⟨hsk, hct, ?_⟩
      simp only [hsk, hct, ne_eq, not_true_eq_false, or_self, if_false] at h
      cases hf : k.kem.decaps with
      | none => rw [hf] at h; simp at h
      | some f =>
        rw [hf] at h
        refine ⟨f, rfl, ?_⟩
        by_cases hs : (f ct sk).1 = 0
        · simp [status_to_result, hs] at h
          exact ⟨hs, h.symm⟩
        · simp [status_to_result, hs] at h
    · simp [hsk, hct] at h
  · simp [hsk] at h

theorem encapsulate_valid_not_invalid_length (k : Kem) (pk : List Nat)
    (hl : pk.length = k.length_public_key) :
    k.encapsulate pk ≠ some (Except.error Error.InvalidLength) := by
  unfold Kem.encapsulate
  simp only [hl, ne_eq, not_true_eq_false, if_false]
  cases k.kem.encaps with
  | none => simp
  | some f => by_cases hs : (f pk).1 = 0 <;> simp [status_to_result, hs]

theorem async_encapsulate_valid_not_invalid_length (k : Kem) (pk : List Nat)
    (hl : pk.length = k.length_public_key) :
    k.async_encapsulate pk ≠ some (Except.error Error.InvalidLength) := by
  unfold Kem.async_encapsulate
  simp only [hl, ne_eq, not_true_eq_false, if_false]
  cases k.kem.async_encaps with
  | none => simp
  | some f => by_cases hs : (f pk).1 = 0 <;> simp [status_to_result, hs]

theorem encapsulate_ciphertext_valid_not_invalid_length (k : Kem) (pk : List Nat)
    (hl : pk.length = k.length_public_key) :
    k.encapsulate_ciphertext pk ≠ some (Except.error Error.InvalidLength) := by
  unfold Kem.encapsulate_ciphertext
  simp only [hl, ne_eq, not_true_eq_false, if_false]
  cases k.kem.encaps_ciphertext with
  | none => simp
  | some f => by_cases hs : (f pk).1 = 0 <;> simp [status_to_result, hs]

theorem encapsulate_shared_secret_valid_not_invalid_length (k : Kem) (ct es pk : List Nat)
    (hp : pk.length = k.length_public_key) (hc : ct.length = k.length_ciphertext)
    (he : es.length = k.length_ephemeral_secret) :
    k.encapsulate_shared_secret ct es pk ≠ some (Except.error Error.InvalidLength) := by
  unfold Kem.encapsulate_shared_secret
  simp only [Kem.length_ciphertext, Kem.length_ephemeral_secret] at hc he
  simp only [hp, hc, he, ne_eq, not_true_eq_false, if_false]
  cases k.kem.encaps_shared_secret with
  | none => simp
  | some f => by_cases hs : (f ct es pk).1 = 0 <;> simp [status_to_result, hs]

theorem decapsulate_valid_not_invalid_length (k : Kem) (sk ct : List Nat)
    (hsk : sk.length = k.length_secret_key) (hct : ct.length = k.length_ciphertext) :
    k.decapsulate sk ct ≠ some (Except.error Error.InvalidLength) := by
  unfold Kem.decapsulate
  simp only [hsk, hct, ne_eq, not_true_eq_false, or_self, if_false]
  cases k.kem.decaps with
  | none => simp
  | some f => by_cases hs : (f ct sk).1 = 0 <;> simp [status_to_result, hs]

/-- C7: each of the five length-checked factories returns `some` view over
the supplied slice exactly when the slice's length equals the handle's
declared length for that buffer kind, and `none` otherwise. -/
theorem from_bytes_factories_length_checked (k : Kem) (buf : List Nat) :
    k.secret_key_from_bytes buf
        = (if buf.length = k.length_secret_key then some buf else none) ∧
    k.public_key_from_bytes buf
        = (if buf.length = k.length_public_key then some buf else none) ∧
    k.ciphertext_from_bytes buf
        = (if buf.length = k.length_ciphertext then some buf else none) ∧
    k.shared_secret_from_bytes buf
        = (if buf.length = k.length_shared_secret then some buf else none) ∧
    k.ephemeral_secret_from_bytes buf
        = (if buf.length = k.length_ephemeral_secret then some buf else none) := by
  refine ⟨?_, ?_, ?_, ?_, ?_⟩ <;>
    simp only [Kem.secret_key_from_bytes, Kem.public_key_from_bytes,
      Kem.ciphertext_from_bytes, Kem.shared_secret_from_bytes,
      Kem.ephemeral_secret_from_bytes, ne_eq] <;>
    (split <;> split <;> first | rfl | omega)

/-- C4: `encapsulate`, `async_encapsulate` and `encapsulate_ciphertext`
return `InvalidLength` exactly when the supplied public key's length
differs from the declared public-key length; in that case the rejection
does not depend on the native entry point at all (it is returned for
every value of the corresponding function-pointer field, including an
absent one, so the native entry point is never invoked) and no output is
produced. -/
theorem encapsulate_invalid_length_iff (k : Kem) (pk : List Nat) :
    (k.encapsulate pk = some (Except.error Error.InvalidLength)
        ↔ pk.length ≠ k.length_public_key) ∧
    (k.async_encapsulate pk = some (Except.error Error.InvalidLength)
        ↔ pk.length ≠ k.length_public_key) ∧
    (k.encapsulate_ciphertext pk = some (Except.error Error.InvalidLength)
        ↔ pk.length ≠ k.length_public_key) ∧
    (pk.length ≠ k.length_public_key → ∀ f g fc,
      Kem.encapsulate { algorithm := k.algorithm, kem := { k.kem with encaps := f } } pk
          = some (Except.error Error.InvalidLength) ∧
      Kem.async_encapsulate
            { algorithm := k.algorithm, kem := { k.kem with async_encaps := g } } pk
          = some (Except.error Error.InvalidLength) ∧
      Kem.encapsulate_ciphertext
            { algorithm := k.algorithm, kem := { k.kem with encaps_ciphertext := fc } } pk
          = some (Except.error Error.InvalidLength)) := by
  refine ⟨?_, ?_, ?_, fun h f g fc => ?_⟩
  · constructor
    · intro h
      by_contra hh
      exact encapsulate_valid_not_invalid_length k pk hh h
    · intro h
      simp [Kem.encapsulate, h]
  · constructor
    · intro h
      by_contra hh
      exact async_encapsulate_valid_not_invalid_length k pk hh h
    · intro h
      simp [Kem.async_encapsulate, h]
  · constructor
    · intro h
      by_contra hh
      exact encapsulate_ciphertext_valid_not_invalid_length k pk hh h
    · intro h
      simp [Kem.encapsulate_ciphertext, h]
  · simp only [Kem.length_public_key] at h
    refine ⟨?_, ?_, ?_⟩ <;>
      simp [Kem.encapsulate, Kem.async_encapsulate, Kem.encapsulate_ciphertext,
        Kem.length_public_key, h]

/-- C5: `encapsulate_shared_secret` returns `InvalidLength` exactly when
any single one of its three inputs has a length differing from its own
declared length (public key against the declared public-key length,
ciphertext against the declared ciphertext length, ephemeral secret
against the declared ephemeral-secret length); on any such mismatch the
rejection is independent of the native entry point (it happens for every
value of the `encaps_shared_secret` field), so validation precedes the
native invocation. -/
theorem encapsulate_shared_secret_validates_lengths (k : Kem) (ct es pk : List Nat) :
    (k.encapsulate_shared_secret ct es pk = some (Except.error Error.InvalidLength)
        ↔ (pk.length ≠ k.length_public_key ∨ ct.length ≠ k.length_ciphertext ∨
            es.length ≠ k.length_ephemeral_secret)) ∧
    ((pk.length ≠ k.length_public_key ∨ ct.length ≠ k.length_ciphertext ∨
        es.length ≠ k.length_ephemeral_secret) → ∀ f,
      Kem.encapsulate_shared_secret
            { algorithm := k.algorithm, kem := { k.kem with encaps_shared_secret := f } }
            ct es pk
          = some (Except.error Error.InvalidLength)) := by
  constructor
  · constructor
    · intro h
      by_contra hh
      push_neg at hh
      exact encapsulate_shared_secret_valid_not_invalid_length k ct es pk
        hh.1 hh.2.1 hh.2.2 h
    · intro h
      rcases h with h | h | h
      · simp [Kem.encapsulate_shared_secret, h]
      · simp only [Kem.length_ciphertext] at h
        simp [Kem.encapsulate_shared_secret, h]
      · simp only [Kem.length_ephemeral_secret] at h
        simp [Kem.encapsulate_shared_secret, h]
  · intro h f
    rcases h with h | h | h
    · simp only [Kem.length_public_key] at h
      simp [Kem.encapsulate_shared_secret, Kem.length_public_key, h]
    · simp only [Kem.length_ciphertext] at h
      simp [Kem.encapsulate_shared_secret, h]
    · simp only [Kem.length_ephemeral_secret] at h
      simp [Kem.encapsulate_shared_secret, h]

/-- C9: `init`, `deinit` and every pipeline operation unwrap the
descriptor's corresponding native function pointer; whenever that field
is absent (and, for the operations that validate caller-supplied buffers,
the inputs pass the length checks that precede the unwrap), the call
panics (modelled by `none`) instead of returning an error.  In particular
`init` and `deinit` are not total for descriptors that define no
init/deinit hooks. -/
theorem missing_native_fn_panics (k : Kem) :
    (k.kem.init = none → k.init = none) ∧
    (k.kem.deinit = none → k.deinit = none) ∧
    (k.kem.keypair = none → k.keypair = none) ∧
    (k.kem.keypair_async = none → k.keypair_async = none) ∧
    (∀ pk, k.kem.encaps = none → pk.length = k.length_public_key →
        k.encapsulate pk = none) ∧
    (∀ pk, k.kem.async_encaps = none → pk.length = k.length_public_key →
        k.async_encapsulate pk = none) ∧
    (∀ pk, k.kem.encaps_ciphertext = none → pk.length = k.length_public_key →
        k.encapsulate_ciphertext pk = none) ∧
    (∀ ct es pk, k.kem.encaps_shared_secret = none →
        pk.length = k.length_public_key → ct.length = k.length_ciphertext →
        es.length = k.length_ephemeral_secret →
        k.encapsulate_shared_secret ct es pk = none) ∧
    (∀ sk ct, k.kem.decaps = none → sk.length = k.length_secret_key →
        ct.length = k.length_ciphertext → k.decapsulate sk ct = none) := by
  refine ⟨fun h => ?_, fun h => ?_, fun h => ?_, fun h => ?_,
    fun pk h hl => ?_, fun pk h hl => ?_, fun pk h hl => ?_,
    fun ct es pk h hp hc he => ?_, fun sk ct h hsk hct => ?_⟩
  · simp [Kem.init, h]
  · simp [Kem.deinit, h]
  · simp [Kem.keypair, h]
  · simp [Kem.keypair_async, h]
  · simp [Kem.encapsulate, h, hl]
  · simp [Kem.async_encapsulate, h, hl]
  · simp [Kem.encapsulate_ciphertext, h, hl]
  · simp only [Kem.length_ciphertext, Kem.length_ephemeral_secret] at hc he
    simp [Kem.encapsulate_shared_secret, h, hp, hc, he]
  · simp [Kem.decapsulate, h, hsk, hct]

/-- C9 witness: on a handle whose descriptor has no init hook, `init`
panics. -/
theorem missing_native_fn_panics_witness : Kem.init toyHandleAbsent = none :=
  (missing_native_fn_panics toyHandleAbsent).1 rfl

/-- C8: `keypair_async` runs exactly the same pipeline as `keypair`, and
`async_encapsulate` exactly the same pipeline as `encapsulate`; if the
paired native entry points compute the same function, the paired
operations return equal results on every input. -/
theorem sync_async_variants_contract_identical (k : Kem)
    (hkp : k.kem.keypair_async = k.kem.keypair)
    (henc : k.kem.async_encaps = k.kem.encaps) :
    k.keypair_async = k.keypair ∧
      ∀ pk, k.async_encapsulate pk = k.encapsulate pk := by
  constructor
  · unfold Kem.keypair_async Kem.keypair
    rw [hkp]
  · intro pk
    unfold Kem.async_encapsulate Kem.encapsulate
    rw [henc]

/-- C8 witness: on the toy handle, whose paired native entry points are
equal, the paired operations agree. -/
theorem sync_async_variants_witness :
    Kem.keypair_async toyHandle = Kem.keypair toyHandle :=
  (sync_async_variants_contract_identical toyHandle rfl rfl).1

/-- C6: handle creation returns `AlgorithmDisabled` exactly when native
acquisition yields a null descriptor — and then no handle is constructed;
on a non-null descriptor it returns the handle.  `AlgorithmDisabled` is
never returned by any other operation. -/
theorem new_algorithm_disabled_iff_null (acquire : Algorithm → Option OQS_KEM)
    (alg : Algorithm) :
    (Kem.new acquire alg = Except.error Error.AlgorithmDisabled ↔ acquire alg = none) ∧
    (∀ d, acquire alg = some d →
        Kem.new acquire alg = Except.ok { algorithm := alg, kem := d }) ∧
    (∀ (k : Kem) (sk ct es pk : List Nat),
      k.keypair ≠ some (Except.error Error.AlgorithmDisabled) ∧
      k.keypair_async ≠ some (Except.error Error.AlgorithmDisabled) ∧
      k.encapsulate pk ≠ some (Except.error Error.AlgorithmDisabled) ∧
      k.async_encapsulate pk ≠ some (Except.error Error.AlgorithmDisabled) ∧
      k.encapsulate_ciphertext pk ≠ some (Except.error Error.AlgorithmDisabled) ∧
      k.encapsulate_shared_secret ct es pk ≠ some (Except.error Error.AlgorithmDisabled) ∧
      k.decapsulate sk ct ≠ some (Except.error Error.AlgorithmDisabled) ∧
      k.init ≠ some (Except.error Error.AlgorithmDisabled) ∧
      k.deinit ≠ some (Except.error Error.AlgorithmDisabled)) := by
  refine ⟨?_, fun d hd => ?_, fun k sk ct es pk => ?_⟩
  · unfold Kem.new
    cases h : acquire alg with
    | none => simp
    | some d => simp
  · unfold Kem.new
    rw [hd]
  · refine ⟨?_, ?_, ?_, ?_, ?_, ?_, ?_, ?_, ?_⟩
    · unfold Kem.keypair
      cases k.kem.keypair with
      | none => simp
      | some f => by_cases hs : (f ()).1 = 0 <;> simp [status_to_result, hs]
    · unfold Kem.keypair_async
      cases k.kem.keypair_async with
      | none => simp
      | some f => by_cases hs : (f ()).1 = 0 <;> simp [status_to_result, hs]
    · unfold Kem.encapsulate
      split
      · simp
      · cases k.kem.encaps with
        | none => simp
        | some f => by_cases hs : (f pk).1 = 0 <;> simp [status_to_result, hs]
    · unfold Kem.async_encapsulate
      split
      · simp
      · cases k.kem.async_encaps with
        | none => simp
        | some f => by_cases hs : (f pk).1 = 0 <;> simp [status_to_result, hs]
    · unfold Kem.encapsulate_ciphertext
      split
      · simp
      · cases k.kem.encaps_ciphertext with
        | none => simp
        | some f => by_cases hs : (f pk).1 = 0 <;> simp [status_to_result, hs]
    · unfold Kem.encapsulate_shared_secret
      split
      · simp
      · split
        · simp
        · split
          · simp
          · cases k.kem.encaps_shared_secret with
            | none => simp
            | some f =>
              by_cases hs : (f ct es pk).1 = 0 <;> simp [status_to_result, hs]
    · unfold Kem.decapsulate
      split
      · simp
      · cases k.kem.decaps with
        | none => simp
        | some f => by_cases hs : (f ct sk).1 = 0 <;> simp [status_to_result, hs]
    · unfold Kem.init
      cases k.kem.init with
      | none => simp
      | some f => by_cases hs : f () = 0 <;> simp [status_to_result, hs]
    · unfold Kem.deinit
      cases k.kem.deinit with
      | none => simp
      | some f => by_cases hs : f () = 0 <;> simp [status_to_result, hs]

/-- C6 witness: under an acquisition function that yields no descriptor,
handle creation fails with `AlgorithmDisabled`. -/
theorem new_algorithm_disabled_witness :
    Kem.new (fun _ => none) Algorithm.SikeP434 = Except.error Error.AlgorithmDisabled :=
  (new_algorithm_disabled_iff_null (fun _ => none) Algorithm.SikeP434).1.mpr rfl

/-- C4 witness: a public key one byte short is rejected with
`InvalidLength` on the toy handle. -/
theorem encapsulate_invalid_length_witness :
    Kem.encapsulate toyHandle [] = some (Except.error Error.InvalidLength) :=
  (encapsulate_invalid_length_iff toyHandle []).1.mpr (by decide)

/-- C5 witness: a ciphertext of the wrong length alone makes
`encapsulate_shared_secret` fail with `InvalidLength` on the toy handle. -/
theorem encapsulate_shared_secret_validates_witness :
    Kem.encapsulate_shared_secret toyHandle [] [4] [7]
      = some (Except.error Error.InvalidLength) :=
  (encapsulate_shared_secret_validates_lengths toyHandle [] [4] [7]).1.mpr
    (Or.inr (Or.inl (by decide)))

/-- C3: whenever the native entry point reports a non-success status on
the arguments the operation passes it, the operation returns
`OperationFailed` — and, the result type being `Except`, it carries no
output buffer of any kind. -/
theorem native_failure_surfaces_operation_failed (k : Kem) :
    (∀ f, k.kem.keypair = some f → (f ()).1 ≠ 0 →
        k.keypair = some (Except.error Error.OperationFailed)) ∧
    (∀ f, k.kem.keypair_async = some f → (f ()).1 ≠ 0 →
        k.keypair_async = some (Except.error Error.OperationFailed)) ∧
    (∀ f pk, k.kem.encaps = some f → pk.length = k.length_public_key →
        (f pk).1 ≠ 0 →
        k.encapsulate pk = some (Except.error Error.OperationFailed)) ∧
    (∀ f pk, k.kem.async_encaps = some f → pk.length = k.length_public_key →
        (f pk).1 ≠ 0 →
        k.async_encapsulate pk = some (Except.error Error.OperationFailed)) ∧
    (∀ f pk, k.kem.encaps_ciphertext = some f → pk.length = k.length_public_key →
        (f pk).1 ≠ 0 →
        k.encapsulate_ciphertext pk = some (Except.error Error.OperationFailed)) ∧
    (∀ f ct es pk, k.kem.encaps_shared_secret = some f →
        pk.length = k.length_public_key → ct.length = k.length_ciphertext →
        es.length = k.length_ephemeral_secret → (f ct es pk).1 ≠ 0 →
        k.encapsulate_shared_secret ct es pk
          = some (Except.error Error.OperationFailed)) ∧
    (∀ f sk ct, k.kem.decaps = some f → sk.length = k.length_secret_key →
        ct.length = k.length_ciphertext → (f ct sk).1 ≠ 0 →
        k.decapsulate sk ct = some (Except.error Error.OperationFailed)) ∧
    (∀ f, k.kem.init = some f → f () ≠ 0 →
        k.init = some (Except.error Error.OperationFailed)) ∧
    (∀ f, k.kem.deinit = some f → f () ≠ 0 →
        k.deinit = some (Except.error Error.OperationFailed)) := by
  refine ⟨fun f hf hs => ?_, fun f hf hs => ?_, fun f pk hf hl hs => ?_,
    fun f pk hf hl hs => ?_, fun f pk hf hl hs => ?_,
    fun f ct es pk hf hp hc he hs => ?_, fun f sk ct hf hsk hct hs => ?_,
    fun f hf hs => ?_, fun f hf hs => ?_⟩
  · simp [Kem.keypair, hf, status_to_result, hs]
  · simp [Kem.keypair_async, hf, status_to_result, hs]
  · simp [Kem.encapsulate, hf, hl, status_to_result, hs]
  · simp [Kem.async_encapsulate, hf, hl, status_to_result, hs]
  · simp [Kem.encapsulate_ciphertext, hf, hl, status_to_result, hs]
  · simp only [Kem.length_ciphertext, Kem.length_ephemeral_secret] at hc he
    simp [Kem.encapsulate_shared_secret, hf, hp, hc, he, status_to_result, hs]
  · simp [Kem.decapsulate, hf, hsk, hct, status_to_result, hs]
  · simp [Kem.init, hf, status_to_result, hs]
  · simp [Kem.deinit, hf, status_to_result, hs]

/-- C3 witness: a failing native keygen surfaces as `OperationFailed`. -/
theorem native_failure_witness :
    Kem.keypair toyHandleFail = some (Except.error Error.OperationFailed) :=
  (native_failure_surfaces_operation_failed toyHandleFail).1
    (fun _ => (1, [], [])) rfl (by decide)

/-- C2: every buffer a successful operation returns has length exactly
the handle's declared length for its kind. -/
theorem successful_outputs_have_declared_lengths (k : Kem) :
    (∀ pk sk, k.keypair = some (Except.ok (pk, sk)) →
        pk.length = k.length_public_key ∧ sk.length = k.length_secret_key) ∧
    (∀ pk sk, k.keypair_async = some (Except.ok (pk, sk)) →
        pk.length = k.length_public_key ∧ sk.length = k.length_secret_key) ∧
    (∀ pkb ct ss, k.encapsulate pkb = some (Except.ok (ct, ss)) →
        ct.length = k.length_ciphertext ∧ ss.length = k.length_shared_secret) ∧
    (∀ pkb ct ss, k.async_encapsulate pkb = some (Except.ok (ct, ss)) →
        ct.length = k.length_ciphertext ∧ ss.length = k.length_shared_secret) ∧
    (∀ pkb ct es, k.encapsulate_ciphertext pkb = some (Except.ok (ct, es)) →
        ct.length = k.length_ciphertext ∧ es.length = k.length_ephemeral_secret) ∧
    (∀ ct es pkb ss, k.encapsulate_shared_secret ct es pkb = some (Except.ok ss) →
        ss.length = k.length_shared_secret) ∧
    (∀ sk ct ss, k.decapsulate sk ct = some (Except.ok ss) →
        ss.length = k.length_shared_secret) := by
  refine ⟨fun pk sk h => ?_, fun pk sk h => ?_, fun pkb ct ss h => ?_,
    fun pkb ct ss h => ?_, fun pkb ct es h => ?_, fun ct es pkb ss h => ?_,
    fun sk ct ss h => ?_⟩
  · obtain ⟨f, -, -, hpk, hsk⟩ := keypair_ok_inv k pk sk h
    subst hpk hsk
    exact ⟨setLen_length _ _, setLen_length _ _⟩
  · obtain ⟨f, -, -, hpk, hsk⟩ := keypair_async_ok_inv k pk sk h
    subst hpk hsk
    exact ⟨setLen_length _ _, setLen_length _ _⟩
  · obtain ⟨-, f, -, -, hct, hss⟩ := encapsulate_ok_inv k pkb ct ss h
    subst hct hss
    exact ⟨setLen_length _ _, setLen_length _ _⟩
  · obtain ⟨-, f, -, -, hct, hss⟩ := async_encapsulate_ok_inv k pkb ct ss h
    subst hct hss
    exact ⟨setLen_length _ _, setLen_length _ _⟩
  · obtain ⟨-, f, -, -, hct, hes⟩ := encapsulate_ciphertext_ok_inv k pkb ct es h
    subst hct hes
    exact ⟨setLen_length _ _, setLen_length _ _⟩
  · obtain ⟨-, -, -, f, -, -, hss⟩ := encapsulate_shared_secret_ok_inv k ct es pkb ss h
    subst hss
    exact setLen_length _ _
  · obtain ⟨-, -, f, -, -, hss⟩ := decapsulate_ok_inv k sk ct ss h
    subst hss
    exact setLen_length _ _

/-- C2 witness: on the toy handle, a successful keypair returns buffers
of the declared lengths. -/
theorem successful_outputs_lengths_witness :
    ([7] : List Nat).length = Kem.length_public_key toyHandle ∧
      ([7] : List Nat).length = Kem.length_secret_key toyHandle :=
  (successful_outputs_have_declared_lengths toyHandle).1 [7] [7] rfl

/-- C10: a borrowed view obtained as `some` from a handle's own
length-checked factory never makes a pipeline operation of that handle
fail with `InvalidLength`. -/
theorem factory_views_pass_pipeline_checks (k : Kem) :
    (∀ buf pk, k.public_key_from_bytes buf = some pk →
        k.encapsulate pk ≠ some (Except.error Error.InvalidLength)) ∧
    (∀ bs bc sk ct, k.secret_key_from_bytes bs = some sk →
        k.ciphertext_from_bytes bc = some ct →
        k.decapsulate sk ct ≠ some (Except.error Error.InvalidLength)) := by
  constructor
  · intro buf pk h
    unfold Kem.public_key_from_bytes at h
    split at h
    · simp at h
    · next hcond =>
      rw [not_ne_iff] at hcond
      obtain rfl : buf = pk := Option.some.inj h
      exact encapsulate_valid_not_invalid_length k buf hcond.symm
  · intro bs bc sk ct hs hc
    unfold Kem.secret_key_from_bytes at hs
    unfold Kem.ciphertext_from_bytes at hc
    split at hs
    · simp at hs
    · next hconds =>
      rw [not_ne_iff] at hconds
      obtain rfl : bs = sk := Option.some.inj hs
      split at hc
      · simp at hc
      · next hcondc =>
        rw [not_ne_iff] at hcondc
        obtain rfl : bc = ct := Option.some.inj hc
        exact decapsulate_valid_not_invalid_length k bs bc hconds.symm hcondc.symm

/-- C10 witness: a factory-accepted public key passes the encapsulate
length check on the toy handle. -/
theorem factory_views_witness :
    Kem.encapsulate toyHandle [7] ≠ some (Except.error Error.InvalidLength) :=
  (factory_views_pass_pipeline_checks toyHandle).1 [7] [7] rfl

/-- Modelled from the spec: the cryptographic algorithm behind the
descriptor is an external collaborator (spec §1 OUT OF SCOPE), so its
round-trip guarantee — "decapsulation with the secret key and ciphertext
recovers the same shared secret" (spec GLOSSARY "KEM", §6 entry-point
contract) — is not code under `src/` and is modelled here as a predicate
on descriptors, phrased on the finalized buffers the wrapper actually
passes back into the native layer. -/
def NativeRoundTrip (d : OQS_KEM) : Prop :=
  ∀ fkp fenc pkW skW ctW ssW,
    d.keypair = some fkp → d.encaps = some fenc →
    fkp () = (0, pkW, skW) →
    fenc (setLen d.length_public_key pkW) = (0, ctW, ssW) →
    ∃ fdec, d.decaps = some fdec ∧
      (fdec (setLen d.length_ciphertext ctW) (setLen d.length_secret_key skW)).1 = 0 ∧
      setLen d.length_shared_secret
          (fdec (setLen d.length_ciphertext ctW) (setLen d.length_secret_key skW)).2
        = setLen d.length_shared_secret ssW

/-- C1: on a handle whose native descriptor satisfies the KEM round-trip
contract, any key pair successfully returned by `keypair` and any
(ciphertext, shared secret) successfully returned by `encapsulate`
against its public key make `decapsulate` succeed with a byte-equal
shared secret. -/
theorem keypair_encapsulate_decapsulate_roundtrip (k : Kem)
    (hnat : NativeRoundTrip k.kem) (pk sk ct ss : List Nat)
    (hkp : k.keypair = some (Except.ok (pk, sk)))
    (henc : k.encapsulate pk = some (Except.ok (ct, ss))) :
    k.decapsulate sk ct = some (Except.ok ss) := by
  obtain ⟨fkp, hfkp, hs0, hpk, hsk⟩ := keypair_ok_inv k pk sk hkp
  obtain ⟨hlen, fenc, hfenc, hs1, hct, hss⟩ := encapsulate_ok_inv k pk ct ss henc
  have htrip : fkp () = (0, (fkp ()).2.1, (fkp ()).2.2) := by
    have : fkp () = ((fkp ()).1, (fkp ()).2.1, (fkp ()).2.2) := rfl
    rw [hs0] at this
    exact this
  have henc2 : fenc (setLen k.kem.length_public_key (fkp ()).2.1)
      = (0, (fenc pk).2.1, (fenc pk).2.2) := by
    have : fenc pk = ((fenc pk).1, (fenc pk).2.1, (fenc pk).2.2) := rfl
    rw [hs1] at this
    rw [← hpk]
    exact this
  obtain ⟨fdec, hfdec, hds, hdss⟩ :=
    hnat fkp fenc (fkp ()).2.1 (fkp ()).2.2 (fenc pk).2.1 (fenc pk).2.2
      hfkp hfenc htrip henc2
  subst hpk hsk hct hss
  unfold Kem.decapsulate
  rw [if_neg (by simp [Kem.length_secret_key, Kem.length_ciphertext, setLen_length]),
    hfdec]
  simp only [status_to_result, hds, if_pos]
  rw [hdss]

/-- The toy descriptor satisfies the modelled native round-trip
contract. -/
theorem toyKem_native_roundtrip : NativeRoundTrip toyKem := by
  intro fkp fenc pkW skW ctW ssW hfkp hfenc htrip hencW
  simp only [toyKem, Option.some.injEq] at hfkp hfenc
  subst hfkp hfenc
  simp only [Prod.mk.injEq] at htrip
  obtain ⟨-, hpkW, hskW⟩ := htrip
  subst hpkW hskW
  simp only [Prod.mk.injEq] at hencW
  obtain ⟨-, hctW, hssW⟩ := hencW
  subst hctW hssW
  exact ⟨fun ct _ => (0, ct), rfl, rfl, rfl⟩

/-- C1 witness: round trip on the toy handle at its concrete key pair,
ciphertext and shared secret. -/
theorem roundtrip_witness :
    Kem.decapsulate toyHandle [7] [7] = some (Except.ok [7]) :=
  keypair_encapsulate_decapsulate_roundtrip toyHandle toyKem_native_roundtrip
    [7] [7] [7] [7] rfl rfl

end Oqs
